import Mathlib

/-!
Verification development for the incremental code-indexing pipeline
(`x-pack/plugins/code/server/indexer/lsp_indexer.ts`).

The pure data model and the per-file processing routine `processRequest`,
the enumeration routine `prepareRequests` and the cleanup routine
`cleanIndex` are shallow embeddings of the TypeScript source of
`LspIndexer`.  External collaborators (the language-analysis service, the
file system, git operations, the search backend) are passed in as explicit
function parameters, mirroring the await points of the source.  The
abstract pipeline (`AbstractIndexer`) and the batch write buffer
(`BatchIndexHelper`) live outside the given source tree; they are modelled
from the specification where noted.
-/

set_option autoImplicit false

namespace LspIndexerModel

/-- IndexStats models the `Map<IndexStatsKey, number>` of the source with its
three keys `Symbol`, `Reference`, `File` as named fields. -/
structure IndexStats where
  symbol : Nat
  reference : Nat
  file : Nat
deriving DecidableEq, Repr

/-- Merge of one per-item stats increment into run-level stats
(the aggregation the pipeline performs after each item). -/
def IndexStats.merge (a b : IndexStats) : IndexStats :=
  { symbol := a.symbol + b.symbol
    reference := a.reference + b.reference
    file := a.file + b.file }

def IndexStats.zero : IndexStats := { symbol := 0, reference := 0, file := 0 }

/-- LspIndexRequest from `model`: one work item per file. -/
structure LspIndexRequest where
  repoUri : String
  localRepoPath : String
  filePath : String
  revision : String
deriving DecidableEq, Repr

/-- The `symbolInformation` part of a symbol returned by the language-analysis
service; `processRequest` reads its `name`. -/
structure SymbolInformation where
  name : String
deriving DecidableEq, Repr

/-- One symbol of the `textDocument/full` response. -/
structure LspSymbol where
  symbolInformation : SymbolInformation
deriving DecidableEq, Repr

/-- One reference of the `textDocument/full` response; opaque to the indexer,
which forwards it to the references collection unchanged. -/
structure LspReference where
  data : String
deriving DecidableEq, Repr

/-- One element of the `result` array of a `textDocument/full` response. -/
structure AnalysisResultItem where
  symbols : List LspSymbol
  references : List LspReference
deriving DecidableEq, Repr

/-- The `textDocument/full` response body: a `result` array of items. -/
structure LspResponse where
  result : List AnalysisResultItem
deriving DecidableEq, Repr

/-- Document from `model`: the indexed representation of one file. -/
structure Document where
  repoUri : String
  path : String
  content : String
  language : Option String
  qnames : List String
deriving DecidableEq, Repr

/-- Destination collection names: `SymbolIndexName`, `ReferenceIndexName` and
`DocumentIndexName` from `./schema` are repository-scoped collection names;
they are kept abstract as a tagged constructor per collection kind. -/
inductive IndexName where
  | symbolIndex (repoUri : String)
  | referenceIndex (repoUri : String)
  | documentIndex (repoUri : String)
deriving DecidableEq, Repr

/-- Payload of one buffered write. -/
inductive BatchPayload where
  | symbol (s : LspSymbol)
  | ref (r : LspReference)
  | doc (d : Document)
deriving DecidableEq, Repr

/-- BatchEntry: one write handed to the batch write buffer,
`{destinationCollection, payload}`. -/
structure BatchEntry where
  destination : IndexName
  payload : BatchPayload
deriving DecidableEq, Repr

/-- Result of `fs.lstat`; `processRequest` only consults `isSymbolicLink()`. -/
structure FileStat where
  isSymbolicLink : Bool
deriving DecidableEq, Repr

/-- The file-system operations `processRequest` awaits: `lstat`, `readlink`
and `readFile` (the latter two with utf8 encoding).  An `.error` value means
the corresponding call throws. -/
structure FsModel where
  lstat : String → Except String FileStat
  readlink : String → Except String String
  readFile : String → Except String String

/-- JavaScript `Set.add` on the insertion-ordered name set. -/
def addName (names : List String) (n : String) : List String :=
  if names.contains n then names else names ++ [n]

/-- The per-file name set built by the symbol loop:
`symbolNames.add(symbol.symbolInformation.name)` for each symbol in order,
starting from the empty set. -/
def collectNames (symbols : List LspSymbol) : List String :=
  symbols.foldl (fun acc s => addName acc s.symbolInformation.name) []

/-- The local path read by `processRequest`:
`` `${localRepoPath}${filePath}` ``. -/
def localFilePath (request : LspIndexRequest) : String :=
  request.localRepoPath ++ request.filePath

/-- The try-block of `processRequest` around the analysis call and the
symbol/reference loops: given the outcome of the awaited `sendRequest` call,
it yields the writes issued, the collected name set, and the symbol and
reference counts recorded in the stats.  On an exception, a falsy response
or an empty `result` it contributes nothing (the source logs and moves on
to file indexing). -/
def analysisTryBlock (lspSendRequest : Except String (Option LspResponse))
    (repoUri : String) : List BatchEntry × List String × Nat × Nat :=
  match lspSendRequest with
  | .error _ => ([], [], 0, 0)
  | .ok none => ([], [], 0, 0)
  | .ok (some response) =>
    match response.result with
    | [] => ([], [], 0, 0)
    | item :: _ =>
      let symbolWrites := item.symbols.map fun s =>
        BatchEntry.mk (IndexName.symbolIndex repoUri) (BatchPayload.symbol s)
      let referenceWrites := item.references.map fun r =>
        BatchEntry.mk (IndexName.referenceIndex repoUri) (BatchPayload.ref r)
      (symbolWrites ++ referenceWrites, collectNames item.symbols,
        item.symbols.length, item.references.length)

/-- Shallow embedding of `LspIndexer.processRequest`.

`lspSendRequest` is the outcome of the awaited
`lspService.sendRequest(textDocument/full, ...)` call: an exception, a falsy
response, or a response body.  The returned pair carries, in order, every
write issued to the batch write buffer during the call, and either the final
`IndexStats` or the error the call raises (when `lstat`/`readlink`/`readFile`
throws).  The analysis try-block is caught: on error or an empty `result`
the routine proceeds to file indexing with zero symbols and references. -/
def processRequest (lspSendRequest : Except String (Option LspResponse))
    (fsm : FsModel) (detectLang : String → String → Option String)
    (request : LspIndexRequest) :
    List BatchEntry × Except String IndexStats :=
  match analysisTryBlock lspSendRequest request.repoUri with
  | (writes, symbolNames, symbolCount, referenceCount) =>
    let path := localFilePath request
    match fsm.lstat path with
    | .error e => (writes, .error e)
    | .ok st =>
      match (if st.isSymbolicLink then fsm.readlink path else fsm.readFile path) with
      | .error e => (writes, .error e)
      | .ok content =>
        let body : Document :=
          { repoUri := request.repoUri
            path := request.filePath
            content := content
            language := detectLang request.filePath content
            qnames := symbolNames }
        (writes ++ [BatchEntry.mk (IndexName.documentIndex request.repoUri)
            (BatchPayload.doc body)],
          .ok { symbol := symbolCount, reference := referenceCount, file := 1 })

/-- Document writes among a list of buffered writes. -/
def docWrites (writes : List BatchEntry) : List Document :=
  writes.filterMap fun e =>
    match e.payload with
    | .doc d => some d
    | _ => none

/-- Whether a `processRequest` call raised an error instead of returning
stats. -/
def raisesError (out : List BatchEntry × Except String IndexStats) : Bool :=
  match out.2 with
  | .error _ => true
  | .ok _ => false

/-- Test for the analysis call erroring or returning an empty result:
the condition under which the source skips symbol and reference indexing. -/
def lspFailedOrEmpty : Except String (Option LspResponse) → Bool
  | .error _ => true
  | .ok none => true
  | .ok (some r) => r.result.isEmpty

/-- Test that the file-read sequence of `processRequest` succeeds at a path. -/
def fsReadOk (fsm : FsModel) (path : String) : Bool :=
  match fsm.lstat path with
  | .error _ => false
  | .ok st =>
    match (if st.isSymbolicLink then fsm.readlink path else fsm.readFile path) with
    | .error _ => false
    | .ok _ => true

/-- Result of `workspaceHandler.openWorkspace`: the working-copy directory
(`workspaceRepo.workdir()`) and the resolved revision. -/
structure WorkspaceResult where
  workspaceDir : String
  workspaceRevision : String
deriving DecidableEq, Repr

/-- File tree returned by `GitOperations.fileTree`. -/
inductive FileTree where
  | file (path : String)
  | dir (path : String) (children : List FileTree)

/-- Number.MAX_SAFE_INTEGER. -/
def maxSafeInteger : Nat := 2 ^ 53 - 1

/-- Collaborators awaited or called by `prepareRequests`:
`workspaceHandler.openWorkspace(repoUri, ref)`,
`GitOperations.fileTree(repoUri, path, ref, depth, maxEntries, includeDirs,
maxDepth)`, `RepositoryUtils.getAllFiles`, `detectLanguageByFilename` and
`lspService.supportLanguage`. -/
structure PrepareEnv where
  openWorkspace : String → String → Except String WorkspaceResult
  fileTree : String → String → String → Nat → Nat → Bool → Nat → Except String FileTree
  getAllFiles : FileTree → List String
  detectLanguageByFilename : String → Option String
  supportLanguage : String → Bool

/-- The filter applied to each file path: keep it when a language is detected
from the filename (a truthy value) and that language is supported. -/
def keepFile (env : PrepareEnv) (filePath : String) : Bool :=
  match env.detectLanguageByFilename filePath with
  | none => false
  | some lang => env.supportLanguage lang

/-- Shallow embedding of `LspIndexer.prepareRequests`.  The source opens the
workspace at the literal ref `head` and walks the file tree at the literal
ref `HEAD`; the run-level `revision` field of the indexer is taken as the
`revision` parameter here and is not consulted.  The catch clause logs and
rethrows, so collaborator errors propagate unchanged. -/
def prepareRequests (env : PrepareEnv) (repoUri revision : String) :
    Except String (List LspIndexRequest) :=
  match env.openWorkspace repoUri "head" with
  | .error e => .error e
  | .ok ws =>
    match env.fileTree repoUri "" "HEAD" 0 maxSafeInteger false maxSafeInteger with
    | .error e => .error e
    | .ok tree =>
      .ok (((env.getAllFiles tree).filter (keepFile env)).map fun filePath =>
        { repoUri := repoUri
          localRepoPath := ws.workspaceDir
          filePath := filePath
          revision := ws.workspaceRevision })

/-- Enumeration as the claim words it: the working-copy snapshot and the tree
walk use the run target revision.  This definition follows the claim text
only, for comparison against `prepareRequests`, which is the source. -/
def prepareRequestsAtRunRevision (env : PrepareEnv) (repoUri revision : String) :
    Except String (List LspIndexRequest) :=
  match env.openWorkspace repoUri revision with
  | .error e => .error e
  | .ok ws =>
    match env.fileTree repoUri "" revision 0 maxSafeInteger false maxSafeInteger with
    | .error e => .error e
    | .ok tree =>
      .ok (((env.getAllFiles tree).filter (keepFile env)).map fun filePath =>
        { repoUri := repoUri
          localRepoPath := ws.workspaceDir
          filePath := filePath
          revision := ws.workspaceRevision })

/-! Search-backend document model and the cleanup routine. -/

/-- One entry of a search-backend collection, abstracted to the set of field
names it carries (the delete queries of `cleanIndex` only test field
existence). -/
structure EsDoc where
  fields : List String
deriving DecidableEq, Repr

/-- A clause usable under `bool.must_not` in the queries `cleanIndex` builds:
an `exists` test on a field. -/
inductive EsClause where
  | existsField (f : String)
deriving DecidableEq, Repr

/-- The query bodies `cleanIndex` sends to `deleteByQuery`: `match_all`, or
`bool.must_not` over a list of clauses. -/
inductive EsQuery where
  | matchAll
  | boolMustNot (clauses : List EsClause)
deriving DecidableEq, Repr

def clauseMatches (d : EsDoc) : EsClause → Bool
  | .existsField f => d.fields.contains f

/-- Whether a document matches a query (and is hence deleted by
`deleteByQuery` with that query). -/
def queryMatches (d : EsDoc) : EsQuery → Bool
  | .matchAll => true
  | .boolMustNot cs => cs.all fun c => !(clauseMatches d c)

/-- Modelled from the spec: the four reserved repository-level marker fields
of `./schema` (`schema.ts` is not part of the given source tree); the spec
names them repository, git-status, lsp-index-status and delete-status. -/
def RepositoryReservedField : String := "repository"

/-- Modelled from the spec: see `RepositoryReservedField`. -/
def RepositoryGitStatusReservedField : String := "git-status"

/-- Modelled from the spec: see `RepositoryReservedField`. -/
def RepositoryLspIndexStatusReservedField : String := "lsp-index-status"

/-- Modelled from the spec: see `RepositoryReservedField`. -/
def RepositoryDeleteStatusReservedField : String := "delete-status"

def reservedFields : List String :=
  [RepositoryReservedField, RepositoryGitStatusReservedField,
    RepositoryLspIndexStatusReservedField, RepositoryDeleteStatusReservedField]

/-- The query of the document-collection deletion of `cleanIndex`:
`bool.must_not` of `exists` on each of the four reserved fields. -/
def cleanDocumentsQuery : EsQuery :=
  .boolMustNot
    [.existsField RepositoryReservedField,
      .existsField RepositoryGitStatusReservedField,
      .existsField RepositoryLspIndexStatusReservedField,
      .existsField RepositoryDeleteStatusReservedField]

/-- Survivors of a `deleteByQuery` call on a collection: the documents that
do not match the query. -/
def deleteByQuery (docs : List EsDoc) (q : EsQuery) : List EsDoc :=
  docs.filter fun d => !(queryMatches d q)

/-- The three collections of one repository in the search backend. -/
structure EsState where
  symbolsDocs : List EsDoc
  referencesDocs : List EsDoc
  documentDocs : List EsDoc
deriving DecidableEq, Repr

/-- Which of the three awaited `deleteByQuery` calls of `cleanIndex` throw. -/
structure DeleteOutcomes where
  symbolsFails : Bool
  referencesFails : Bool
  documentsFails : Bool
deriving DecidableEq, Repr

/-- The three deletions of `cleanIndex`, in source order. -/
inductive CleanStep where
  | symbols
  | references
  | documents
deriving DecidableEq, Repr

/-- One awaited `deleteByQuery` call: it either throws or returns with the
matching documents removed. -/
def deleteByQueryCall (docs : List EsDoc) (q : EsQuery) (fails : Bool) :
    Except String (List EsDoc) :=
  if fails then .error "deleteByQuery failed" else .ok (deleteByQuery docs q)

/-- Shallow embedding of `LspIndexer.cleanIndex`.  Each of the three
`deleteByQuery` calls sits in its own try/catch whose catch branch only
logs, which the match on `deleteByQueryCall` mirrors; consequently the
routine always returns `.ok`.  The result carries the new backend state, the
deletions attempted in order, and the log lines. -/
def cleanIndex (st : EsState) (o : DeleteOutcomes) :
    Except String (EsState × List CleanStep × List String) :=
  let (symbolsDocs, symbolsLog) :=
    match deleteByQueryCall st.symbolsDocs .matchAll o.symbolsFails with
    | .ok docs => (docs, ["Clean up symbols done."])
    | .error _ => (st.symbolsDocs, ["Clean up symbols error."])
  let (referencesDocs, referencesLog) :=
    match deleteByQueryCall st.referencesDocs .matchAll o.referencesFails with
    | .ok docs => (docs, ["Clean up references done."])
    | .error _ => (st.referencesDocs, ["Clean up references error."])
  let (documentDocs, documentsLog) :=
    match deleteByQueryCall st.documentDocs cleanDocumentsQuery o.documentsFails with
    | .ok docs => (docs, ["Clean up documents done."])
    | .error _ => (st.documentDocs, ["Clean up documents error."])
  .ok ({ symbolsDocs := symbolsDocs, referencesDocs := referencesDocs,
          documentDocs := documentDocs },
    [CleanStep.symbols, CleanStep.references, CleanStep.documents],
    symbolsLog ++ referencesLog ++ documentsLog)

/-! Batch write buffer and run lifecycle. -/

/-- Modelled from the spec: `BatchIndexHelper` (`batch_index_helper.ts`) is
not part of the given source tree.  Per §4.1, `index` enqueues one write
unless the buffer was cancelled (then it is a no-op), `flush` sends all
pending writes as one batch, and `cancel` discards pending writes and
suppresses future acceptance.  `indexCalls` counts every `index` call
received, `flushCalls` every `flush` call. -/
structure BufferState where
  pending : List BatchEntry
  bufCancelled : Bool
  flushCalls : Nat
  indexCalls : Nat
  flushedBatches : List (List BatchEntry)
deriving DecidableEq, Repr

def BufferState.initial : BufferState :=
  { pending := [], bufCancelled := false, flushCalls := 0, indexCalls := 0,
    flushedBatches := [] }

/-- Modelled from the spec: `BatchIndexHelper.index` — a no-op after
cancellation, an enqueue otherwise. -/
def BufferState.indexWrite (b : BufferState) (e : BatchEntry) : BufferState :=
  if b.bufCancelled then { b with indexCalls := b.indexCalls + 1 }
  else { b with pending := b.pending ++ [e], indexCalls := b.indexCalls + 1 }

/-- Modelled from the spec: `BatchIndexHelper.flush` — sends all pending
writes as one batch. -/
def BufferState.flushAll (b : BufferState) : BufferState :=
  { b with
    pending := []
    flushCalls := b.flushCalls + 1
    flushedBatches := b.flushedBatches ++ [b.pending] }

/-- Modelled from the spec: `BatchIndexHelper.cancel` — discards the pending
writes and suppresses future acceptance. -/
def BufferState.cancelBuffer (b : BufferState) : BufferState :=
  { b with pending := [], bufCancelled := true }

/-- Terminal state of a run. -/
inductive RunState where
  | completed
  | cancelled
  | failed
deriving DecidableEq, Repr

/-- A per-item processing routine, as the pipeline sees it: the writes it
issues to the buffer and its outcome. -/
def ProcessFn : Type :=
  LspIndexRequest → List BatchEntry × Except String IndexStats

/-- Modelled from the spec: whether the cooperative cancellation flag is
observed set before item `i`, when `cancelAfter` items complete before
`LspIndexer.cancel` is invoked (`none`: never invoked). -/
def cancelFlag (cancelAfter : Option Nat) (i : Nat) : Bool :=
  match cancelAfter with
  | some k => decide (k ≤ i)
  | none => false

/-- Modelled from the spec: the processing loop of the abstract indexing
pipeline (§4.2, `abstract_indexer.ts` is not part of the given source tree).
Work items are iterated sequentially; before each item the cancellation flag
is checked and, if set, iteration stops.  `cancelAfter = some k` means
`LspIndexer.cancel` is invoked once `k` items have completed, which cancels
the buffer at that moment and sets the flag; `none` means no cancellation.
A failing item is caught and contributes nothing to the stats; its writes
already issued stay in the buffer.  Returns the buffer, the aggregated
stats, and whether cancellation was observed. -/
def runLoop (proc : ProcessFn) (cancelAfter : Option Nat) :
    List LspIndexRequest → Nat → BufferState → IndexStats →
    BufferState × IndexStats × Bool
  | [], _, buf, stats => (buf, stats, false)
  | r :: rest, i, buf, stats =>
    if cancelFlag cancelAfter i then (buf.cancelBuffer, stats, true)
    else
      let (writes, outcome) := proc r
      let buf2 := writes.foldl BufferState.indexWrite buf
      let stats2 :=
        match outcome with
        | .ok s => stats.merge s
        | .error _ => stats
      runLoop proc cancelAfter rest (i + 1) buf2 stats2

/-- Modelled from the spec: one full run, the abstract pipeline of §4.2
driven through the `LspIndexer.start` override of the source.  Enumeration
failure is fatal and yields `failed` with no item processed.  The
`finally` block of `LspIndexer.start` flushes the buffer unless the run
was cancelled (`if (!this.isCancelled()) batchIndexHelper.flush()`). -/
def runPipeline (prep : Except String (List LspIndexRequest))
    (proc : ProcessFn) (cancelAfter : Option Nat) :
    RunState × IndexStats × BufferState :=
  match prep with
  | .error _ => (RunState.failed, IndexStats.zero, BufferState.initial.flushAll)
  | .ok reqs =>
    match runLoop proc cancelAfter reqs 0 BufferState.initial IndexStats.zero with
    | (buf, stats, wasCancelled) =>
      if wasCancelled then (RunState.cancelled, stats, buf)
      else (RunState.completed, stats, buf.flushAll)

/-! Concrete instances used to exercise the theorems on explicit inputs. -/

/-- Concrete document collection for exercising the cleanup claims: one
marker document and one plain file document. -/
def markerCleanState : EsState :=
  { symbolsDocs := []
    referencesDocs := []
    documentDocs := [EsDoc.mk ["repository"], EsDoc.mk ["content", "path"]] }

/-- Output of `cleanIndex` on `markerCleanState` with no deletion failing. -/
def markerCleanOut : EsState × List CleanStep × List String :=
  ({ symbolsDocs := []
     referencesDocs := []
     documentDocs := [EsDoc.mk ["repository"]] },
   [CleanStep.symbols, CleanStep.references, CleanStep.documents],
   ["Clean up symbols done.", "Clean up references done.", "Clean up documents done."])

/-- Concrete environment whose working copies differ between the ref `head`
and the run target revision `target-rev`, exposing which ref the
enumeration opens. -/
def headOnlyEnv : PrepareEnv :=
  { openWorkspace := fun _ r =>
      if r = "head" then
        .ok { workspaceDir := "/workspace-head/", workspaceRevision := "resolved-head" }
      else
        .ok { workspaceDir := "/workspace-target/", workspaceRevision := "resolved-target" }
    fileTree := fun _ _ _ _ _ _ _ => .ok (FileTree.file "a.ts")
    getAllFiles := fun t =>
      match t with
      | .file p => [p]
      | .dir _ _ => []
    detectLanguageByFilename := fun _ => some "typescript"
    supportLanguage := fun _ => true }

/-- Work item reused by the pipeline witnesses. -/
def reqA : LspIndexRequest :=
  { repoUri := "github.com/a/b", localRepoPath := "/wc/", filePath := "a.ts",
    revision := "rev1" }

/-- Item processing routine that issues no write and succeeds with empty
stats, for exercising the pipeline claims. -/
def procNoop : ProcessFn := fun _ => ([], .ok IndexStats.zero)

/-- Environment whose workspace open throws. -/
def openFailEnv : PrepareEnv :=
  { openWorkspace := fun _ _ => .error "workspace open failed"
    fileTree := fun _ _ _ _ _ _ _ => .ok (FileTree.file "a.ts")
    getAllFiles := fun _ => []
    detectLanguageByFilename := fun _ => none
    supportLanguage := fun _ => false }

/-- Environment whose tree walk throws. -/
def treeFailEnv : PrepareEnv :=
  { openWorkspace := fun _ _ =>
      .ok { workspaceDir := "/wc/", workspaceRevision := "rev1" }
    fileTree := fun _ _ _ _ _ _ _ => .error "tree walk failed"
    getAllFiles := fun _ => []
    detectLanguageByFilename := fun _ => none
    supportLanguage := fun _ => false }

/-- File system where every path is a symbolic link to `target-path`. -/
def fsmLink : FsModel :=
  { lstat := fun _ => .ok { isSymbolicLink := true }
    readlink := fun _ => .ok "target-path"
    readFile := fun _ => .ok "referent-bytes" }

/-- File system where every path is a regular file holding `file-bytes`. -/
def fsmFile : FsModel :=
  { lstat := fun _ => .ok { isSymbolicLink := false }
    readlink := fun _ => .ok "target-path"
    readFile := fun _ => .ok "file-bytes" }

/-- File system where every read step throws. -/
def fsmBroken : FsModel :=
  { lstat := fun _ => .error "ENOENT"
    readlink := fun _ => .error "ENOENT"
    readFile := fun _ => .error "ENOENT" }

/-- Language detector returning no content-based language. -/
def dlNone : String → String → Option String := fun _ _ => none

/-- Analysis result item with two named symbols (one name repeated) and one
reference. -/
def itemA : AnalysisResultItem :=
  { symbols := [{ symbolInformation := { name := "n1" } },
      { symbolInformation := { name := "n1" } },
      { symbolInformation := { name := "n2" } }]
    references := [{ data := "r1" }] }

/-- Second work item, for a mixed-outcome run. -/
def reqB : LspIndexRequest :=
  { repoUri := "github.com/a/b", localRepoPath := "/wc/", filePath := "b.ts",
    revision := "rev1" }

/-- Per-item analysis outcomes of a mixed run: the analysis of `a.ts` fails
while the analysis of every other file succeeds with `itemA`. -/
def mixedLspOf : LspIndexRequest → Except String (Option LspResponse) :=
  fun r =>
    if r.filePath = "a.ts" then .error "lsp down"
    else .ok (some { result := [itemA] })

/-! Facts about the per-file name set. -/

theorem mem_addName (acc : List String) (n x : String) :
    x ∈ addName acc n ↔ x ∈ acc ∨ x = n := by
  unfold addName
  by_cases h : acc.contains n = true
  · have hn : n ∈ acc := by simpa using h
    rw [if_pos h]
    exact ⟨Or.inl, fun hx => hx.elim id fun e => e ▸ hn⟩
  · have hn : ¬ n ∈ acc := by simpa using h
    rw [if_neg h]
    simp

theorem nodup_addName (acc : List String) (n : String) (h : acc.Nodup) :
    (addName acc n).Nodup := by
  unfold addName
  by_cases hc : acc.contains n = true
  · rw [if_pos hc]
    exact h
  · have hm : ¬ n ∈ acc := by simpa using hc
    rw [if_neg hc]
    refine List.Nodup.append h (List.nodup_singleton n) ?_
    intro a ha hb
    rw [List.mem_singleton] at hb
    exact hm (hb ▸ ha)

theorem foldl_addName_nodup (ss : List LspSymbol) (acc : List String)
    (h : acc.Nodup) :
    (ss.foldl (fun a s => addName a s.symbolInformation.name) acc).Nodup := by
  induction ss generalizing acc with
  | nil => exact h
  | cons s rest ih => exact ih _ (nodup_addName _ _ h)

theorem mem_foldl_addName (ss : List LspSymbol) (acc : List String) (x : String) :
    x ∈ ss.foldl (fun a s => addName a s.symbolInformation.name) acc ↔
      x ∈ acc ∨ x ∈ ss.map (fun s => s.symbolInformation.name) := by
  induction ss generalizing acc with
  | nil => simp
  | cons s rest ih =>
    simp only [List.foldl_cons, List.map_cons, List.mem_cons]
    rw [ih, mem_addName]
    tauto

theorem collectNames_nodup (ss : List LspSymbol) : (collectNames ss).Nodup :=
  foldl_addName_nodup ss [] List.nodup_nil

theorem mem_collectNames (ss : List LspSymbol) (x : String) :
    x ∈ collectNames ss ↔ x ∈ ss.map (fun s => s.symbolInformation.name) := by
  unfold collectNames
  rw [mem_foldl_addName]
  simp

/-! Shape lemmas for `processRequest`. -/

theorem analysisTryBlock_failedOrEmpty (lspOut : Except String (Option LspResponse))
    (u : String) (h : lspFailedOrEmpty lspOut = true) :
    analysisTryBlock lspOut u = ([], [], 0, 0) := by
  cases lspOut with
  | error e => rfl
  | ok r =>
    cases r with
    | none => rfl
    | some resp =>
      cases hres : resp.result with
      | nil => simp [analysisTryBlock, hres]
      | cons a rest =>
        exfalso
        simp [lspFailedOrEmpty, hres] at h

theorem processRequest_read_ok_eq (lspOut : Except String (Option LspResponse))
    (fsm : FsModel) (dl : String → String → Option String) (req : LspIndexRequest)
    (st : FileStat) (content : String)
    (hst : fsm.lstat (localFilePath req) = .ok st)
    (hread : (if st.isSymbolicLink then fsm.readlink (localFilePath req)
        else fsm.readFile (localFilePath req)) = .ok content) :
    processRequest lspOut fsm dl req =
      ((analysisTryBlock lspOut req.repoUri).1 ++
        [BatchEntry.mk (IndexName.documentIndex req.repoUri) (BatchPayload.doc
          { repoUri := req.repoUri
            path := req.filePath
            content := content
            language := dl req.filePath content
            qnames := (analysisTryBlock lspOut req.repoUri).2.1 })],
       .ok { symbol := (analysisTryBlock lspOut req.repoUri).2.2.1
             reference := (analysisTryBlock lspOut req.repoUri).2.2.2
             file := 1 }) := by
  unfold processRequest
  rcases hA : analysisTryBlock lspOut req.repoUri with ⟨w, ns, sc, rc⟩
  simp only [hA, hst, hread]

theorem processRequest_lstat_error_eq (lspOut : Except String (Option LspResponse))
    (fsm : FsModel) (dl : String → String → Option String) (req : LspIndexRequest)
    (e : String) (hst : fsm.lstat (localFilePath req) = .error e) :
    processRequest lspOut fsm dl req =
      ((analysisTryBlock lspOut req.repoUri).1, .error e) := by
  unfold processRequest
  rcases hA : analysisTryBlock lspOut req.repoUri with ⟨w, ns, sc, rc⟩
  simp only [hA, hst]

theorem processRequest_read_error_eq (lspOut : Except String (Option LspResponse))
    (fsm : FsModel) (dl : String → String → Option String) (req : LspIndexRequest)
    (st : FileStat) (e : String)
    (hst : fsm.lstat (localFilePath req) = .ok st)
    (hread : (if st.isSymbolicLink then fsm.readlink (localFilePath req)
        else fsm.readFile (localFilePath req)) = .error e) :
    processRequest lspOut fsm dl req =
      ((analysisTryBlock lspOut req.repoUri).1, .error e) := by
  unfold processRequest
  rcases hA : analysisTryBlock lspOut req.repoUri with ⟨w, ns, sc, rc⟩
  simp only [hA, hst, hread]

theorem docWrites_append (a b : List BatchEntry) :
    docWrites (a ++ b) = docWrites a ++ docWrites b := by
  simp [docWrites, List.filterMap_append]

theorem docWrites_analysisTryBlock (lspOut : Except String (Option LspResponse))
    (u : String) : docWrites (analysisTryBlock lspOut u).1 = [] := by
  cases lspOut with
  | error e => rfl
  | ok r =>
    cases r with
    | none => rfl
    | some resp =>
      cases hres : resp.result with
      | nil => simp [analysisTryBlock, hres, docWrites]
      | cons a rest =>
        simp [analysisTryBlock, hres, docWrites, List.filterMap_append,
          List.filterMap_map, Function.comp]

/-! Invariants of the run loop. -/

theorem foldl_indexWrite_flushCalls (writes : List BatchEntry) (buf : BufferState) :
    (writes.foldl BufferState.indexWrite buf).flushCalls = buf.flushCalls := by
  induction writes generalizing buf with
  | nil => rfl
  | cons e rest ih =>
    rw [List.foldl_cons, ih]
    cases hb : buf.bufCancelled <;> simp [BufferState.indexWrite, hb]

theorem foldl_indexWrite_bufCancelled (writes : List BatchEntry) (buf : BufferState) :
    (writes.foldl BufferState.indexWrite buf).bufCancelled = buf.bufCancelled := by
  induction writes generalizing buf with
  | nil => rfl
  | cons e rest ih =>
    rw [List.foldl_cons, ih]
    cases hb : buf.bufCancelled <;> simp [BufferState.indexWrite, hb]

theorem runLoop_buffer_invariant (proc : ProcessFn) (cancelAfter : Option Nat)
    (reqs : List LspIndexRequest) (i : Nat) (buf : BufferState) (stats : IndexStats) :
    (runLoop proc cancelAfter reqs i buf stats).1.flushCalls = buf.flushCalls ∧
    ((runLoop proc cancelAfter reqs i buf stats).2.2 = true →
      (runLoop proc cancelAfter reqs i buf stats).1.pending = [] ∧
      (runLoop proc cancelAfter reqs i buf stats).1.bufCancelled = true) := by
  induction reqs generalizing i buf stats with
  | nil => simp [runLoop]
  | cons r rest ih =>
    unfold runLoop
    cases hf : cancelFlag cancelAfter i with
    | true => simp [BufferState.cancelBuffer]
    | false =>
      rcases hp : proc r with ⟨writes, outcome⟩
      simp only [Bool.false_eq_true, if_false, hp]
      cases outcome with
      | ok s =>
        refine ⟨?_, ?_⟩
        · rw [(ih (i + 1) (writes.foldl BufferState.indexWrite buf) (stats.merge s)).1,
            foldl_indexWrite_flushCalls]
        · exact (ih (i + 1) (writes.foldl BufferState.indexWrite buf) (stats.merge s)).2
      | error e =>
        refine ⟨?_, ?_⟩
        · rw [(ih (i + 1) (writes.foldl BufferState.indexWrite buf) stats).1,
            foldl_indexWrite_flushCalls]
        · exact (ih (i + 1) (writes.foldl BufferState.indexWrite buf) stats).2

theorem runLoop_none_file_count (proc : ProcessFn) (reqs : List LspIndexRequest)
    (i : Nat) (buf : BufferState) (stats : IndexStats)
    (h : ∀ r ∈ reqs, ∃ s : IndexStats, (proc r).2 = .ok s ∧ s.file = 1) :
    (runLoop proc none reqs i buf stats).2.2 = false ∧
    (runLoop proc none reqs i buf stats).2.1.file = stats.file + reqs.length := by
  induction reqs generalizing i buf stats with
  | nil => simp [runLoop]
  | cons r rest ih =>
    obtain ⟨s, hs, hfile⟩ := h r (List.mem_cons_self r rest)
    unfold runLoop
    rcases hp : proc r with ⟨writes, outcome⟩
    have hoc : outcome = .ok s := by rw [← hs, hp]
    subst hoc
    have hflag : cancelFlag none i = false := rfl
    simp only [hflag, Bool.false_eq_true, if_false]
    have hrest := ih (i + 1) (writes.foldl BufferState.indexWrite buf) (stats.merge s)
      (fun x hx => h x (List.mem_cons_of_mem r hx))
    refine ⟨hrest.1, ?_⟩
    rw [hrest.2]
    simp [IndexStats.merge, hfile, List.length_cons]
    omega

/-! Characterization of cleanIndex, shared by the cleanup claims. -/

theorem cleanIndex_eq (st : EsState) (o : DeleteOutcomes) :
    cleanIndex st o = .ok
      ({ symbolsDocs :=
          if o.symbolsFails then st.symbolsDocs
          else deleteByQuery st.symbolsDocs .matchAll
         referencesDocs :=
          if o.referencesFails then st.referencesDocs
          else deleteByQuery st.referencesDocs .matchAll
         documentDocs :=
          if o.documentsFails then st.documentDocs
          else deleteByQuery st.documentDocs cleanDocumentsQuery },
       [CleanStep.symbols, CleanStep.references, CleanStep.documents],
       (if o.symbolsFails then ["Clean up symbols error."]
          else ["Clean up symbols done."]) ++
       (if o.referencesFails then ["Clean up references error."]
          else ["Clean up references done."]) ++
       (if o.documentsFails then ["Clean up documents error."]
          else ["Clean up documents done."])) := by
  rcases o with ⟨s, r, d⟩
  cases s <;> cases r <;> cases d <;> rfl

/-- Membership in the survivors of the document-collection deletion. -/
theorem mem_deleteByQuery_cleanDocuments (docs : List EsDoc) (d : EsDoc) :
    d ∈ deleteByQuery docs cleanDocumentsQuery ↔
      d ∈ docs ∧ reservedFields.any (fun f => d.fields.contains f) = true := by
  unfold deleteByQuery
  rw [List.mem_filter]
  constructor
  · rintro ⟨hmem, hq⟩
    refine ⟨hmem, ?_⟩
    revert hq
    simp [queryMatches, cleanDocumentsQuery, clauseMatches, reservedFields]
  · rintro ⟨hmem, hq⟩
    refine ⟨hmem, ?_⟩
    revert hq
    simp [queryMatches, cleanDocumentsQuery, clauseMatches, reservedFields]

/-- C4: the document-collection deletion issued by cleanIndex deletes exactly
the entries carrying none of the four reserved repository-level marker
fields; entries carrying any reserved field survive, all others are
deleted. -/
theorem cleanIndex_document_deletion_spares_markers (st : EsState)
    (o : DeleteOutcomes) (out : EsState × List CleanStep × List String)
    (hdoc : o.documentsFails = false) (hout : cleanIndex st o = .ok out)
    (d : EsDoc) :
    d ∈ out.1.documentDocs ↔
      d ∈ st.documentDocs ∧
      reservedFields.any (fun f => d.fields.contains f) = true := by
  rw [cleanIndex_eq] at hout
  have hval := Except.ok.inj hout
  rw [← hval]
  simp only [hdoc, Bool.false_eq_true, if_false]
  exact mem_deleteByQuery_cleanDocuments st.documentDocs d

/-- Witness for C4: on a concrete collection holding one repository marker
document and one file document, the marker survives the cleanup. -/
theorem cleanIndex_document_deletion_spares_markers_witness :
    EsDoc.mk ["repository"] ∈ markerCleanOut.1.documentDocs ↔
      EsDoc.mk ["repository"] ∈ markerCleanState.documentDocs ∧
      reservedFields.any (fun f => (EsDoc.mk ["repository"]).fields.contains f) = true :=
  cleanIndex_document_deletion_spares_markers markerCleanState
    ⟨false, false, false⟩ markerCleanOut rfl rfl (EsDoc.mk ["repository"])

/-- C5: cleanIndex attempts the symbol, reference and document deletions in
that order whatever subset of them fails, each failure being absorbed by its
own handler: the call always returns successfully, and the outcome of each
deletion depends only on its own failure flag. -/
theorem cleanIndex_best_effort_attempts_all (st : EsState) (o : DeleteOutcomes) :
    cleanIndex st o = .ok
      ({ symbolsDocs :=
          if o.symbolsFails then st.symbolsDocs
          else deleteByQuery st.symbolsDocs .matchAll
         referencesDocs :=
          if o.referencesFails then st.referencesDocs
          else deleteByQuery st.referencesDocs .matchAll
         documentDocs :=
          if o.documentsFails then st.documentDocs
          else deleteByQuery st.documentDocs cleanDocumentsQuery },
       [CleanStep.symbols, CleanStep.references, CleanStep.documents],
       (if o.symbolsFails then ["Clean up symbols error."]
          else ["Clean up symbols done."]) ++
       (if o.referencesFails then ["Clean up references error."]
          else ["Clean up references done."]) ++
       (if o.documentsFails then ["Clean up documents error."]
          else ["Clean up documents done."])) :=
  cleanIndex_eq st o

/-- C10: a response whose result array has more than one element is
processed exactly as the response holding only its first element: the
symbols and references of the later elements are neither buffered nor
counted. -/
theorem processRequest_uses_only_first_result_item
    (a : AnalysisResultItem) (rest : List AnalysisResultItem) (fsm : FsModel)
    (dl : String → String → Option String) (request : LspIndexRequest) :
    processRequest (.ok (some { result := a :: rest })) fsm dl request =
      processRequest (.ok (some { result := [a] })) fsm dl request := rfl

/-- Counterexample for C2 as stated: the source opens the working copy at
the literal ref `head`, not at the run target revision, so on
`headOnlyEnv` with run revision `target-rev` the enumeration differs from
the claim reading. -/
theorem prepareRequests_opens_head_not_run_revision_cex :
    prepareRequests headOnlyEnv "github.com/a/b" "target-rev" ≠
      prepareRequestsAtRunRevision headOnlyEnv "github.com/a/b" "target-rev" := by
  have h1 : prepareRequests headOnlyEnv "github.com/a/b" "target-rev" =
      .ok [{ repoUri := "github.com/a/b", localRepoPath := "/workspace-head/",
             filePath := "a.ts", revision := "resolved-head" }] := rfl
  have h2 : prepareRequestsAtRunRevision headOnlyEnv "github.com/a/b" "target-rev" =
      .ok [{ repoUri := "github.com/a/b", localRepoPath := "/workspace-target/",
             filePath := "a.ts", revision := "resolved-target" }] := rfl
  rw [h1, h2]
  simp

/-- C2 (amended): enumeration opens the working copy at the literal ref
`head` and walks the tree at `HEAD`, regardless of the run revision field;
it keeps exactly the files with a detected, supported language and emits
one request per kept file carrying the run repoUri, the working-copy root
as localRepoPath, the file path, and the revision resolved from the opened
working copy. -/
theorem prepareRequests_characterization (env : PrepareEnv)
    (repoUri revision : String) (ws : WorkspaceResult) (tree : FileTree)
    (hws : env.openWorkspace repoUri "head" = .ok ws)
    (htree : env.fileTree repoUri "" "HEAD" 0 maxSafeInteger false maxSafeInteger
      = .ok tree) :
    prepareRequests env repoUri revision =
      .ok (((env.getAllFiles tree).filter (keepFile env)).map fun filePath =>
        { repoUri := repoUri
          localRepoPath := ws.workspaceDir
          filePath := filePath
          revision := ws.workspaceRevision }) := by
  unfold prepareRequests
  rw [hws, htree]

/-- Witness for C2 (amended) on `headOnlyEnv`. -/
theorem prepareRequests_characterization_witness :
    prepareRequests headOnlyEnv "github.com/a/b" "target-rev" =
      .ok ((((headOnlyEnv.getAllFiles (FileTree.file "a.ts"))).filter
          (keepFile headOnlyEnv)).map fun filePath =>
        { repoUri := "github.com/a/b"
          localRepoPath := "/workspace-head/"
          filePath := filePath
          revision := "resolved-head" }) :=
  prepareRequests_characterization headOnlyEnv "github.com/a/b" "target-rev"
    { workspaceDir := "/workspace-head/", workspaceRevision := "resolved-head" }
    (FileTree.file "a.ts") rfl rfl

/-- C3: whenever a run terminates uncancelled (completed or failed), the
teardown of start flushes the batch write buffer exactly once; on a
cancelled run the flush is skipped and the pending writes were discarded by
the buffer cancellation propagated from cancel. -/
theorem runPipeline_final_flush (prep : Except String (List LspIndexRequest))
    (proc : ProcessFn) (cancelAfter : Option Nat) :
    ((runPipeline prep proc cancelAfter).1 = RunState.completed ∨
      (runPipeline prep proc cancelAfter).1 = RunState.failed →
      (runPipeline prep proc cancelAfter).2.2.flushCalls = 1) ∧
    ((runPipeline prep proc cancelAfter).1 = RunState.cancelled →
      (runPipeline prep proc cancelAfter).2.2.flushCalls = 0 ∧
      (runPipeline prep proc cancelAfter).2.2.pending = [] ∧
      (runPipeline prep proc cancelAfter).2.2.bufCancelled = true) := by
  cases prep with
  | error e =>
    exact ⟨fun _ => rfl, fun h => by simp [runPipeline] at h⟩
  | ok reqs =>
    have hinv := runLoop_buffer_invariant proc cancelAfter reqs 0
      BufferState.initial IndexStats.zero
    rcases hrl : runLoop proc cancelAfter reqs 0 BufferState.initial IndexStats.zero
      with ⟨buf, stats, fl⟩
    rw [hrl] at hinv
    cases fl with
    | false =>
      simp only [runPipeline, hrl, Bool.false_eq_true, if_false]
      refine ⟨fun _ => ?_, fun h => by simp at h⟩
      show buf.flushCalls + 1 = 1
      rw [hinv.1]
      rfl
    | true =>
      simp only [runPipeline, hrl, if_true]
      refine ⟨fun h => ?_, fun _ => ⟨hinv.1, (hinv.2 rfl).1, (hinv.2 rfl).2⟩⟩
      rcases h with h | h <;> simp at h

/-- Witness for C3: a run that completes flushes once; a run cancelled
before its first item flushes never and ends with an empty, cancelled
buffer. -/
theorem runPipeline_final_flush_witness :
    (runPipeline (.ok [reqA]) procNoop none).2.2.flushCalls = 1 ∧
    ((runPipeline (.ok [reqA]) procNoop (some 0)).2.2.flushCalls = 0 ∧
      (runPipeline (.ok [reqA]) procNoop (some 0)).2.2.pending = [] ∧
      (runPipeline (.ok [reqA]) procNoop (some 0)).2.2.bufCancelled = true) :=
  ⟨(runPipeline_final_flush (.ok [reqA]) procNoop none).1 (Or.inl rfl),
    (runPipeline_final_flush (.ok [reqA]) procNoop (some 0)).2 rfl⟩

/-- C8: a collaborator failure during enumeration is rethrown unchanged by
prepareRequests (whether the workspace open or the tree walk throws), and a
run whose enumeration fails ends failed with a buffer that received no
index call. -/
theorem enumeration_failure_fatal_no_writes :
    (∀ (env : PrepareEnv) (repoUri revision e : String),
      env.openWorkspace repoUri "head" = .error e →
      prepareRequests env repoUri revision = .error e) ∧
    (∀ (env : PrepareEnv) (repoUri revision : String) (ws : WorkspaceResult)
        (e : String),
      env.openWorkspace repoUri "head" = .ok ws →
      env.fileTree repoUri "" "HEAD" 0 maxSafeInteger false maxSafeInteger
        = .error e →
      prepareRequests env repoUri revision = .error e) ∧
    (∀ (proc : ProcessFn) (cancelAfter : Option Nat) (e : String),
      (runPipeline (.error e) proc cancelAfter).1 = RunState.failed ∧
      (runPipeline (.error e) proc cancelAfter).2.2.indexCalls = 0 ∧
      (runPipeline (.error e) proc cancelAfter).2.2.pending = []) := by
  refine ⟨?_, ?_, ?_⟩
  · intro env repoUri revision e h
    unfold prepareRequests
    rw [h]
  · intro env repoUri revision ws e hws ht
    unfold prepareRequests
    rw [hws, ht]
  · intro proc cancelAfter e
    exact ⟨rfl, rfl, rfl⟩

/-- Witness for C8 on both failing environments and a failed run. -/
theorem enumeration_failure_fatal_no_writes_witness :
    prepareRequests openFailEnv "github.com/a/b" "rev1"
        = .error "workspace open failed" ∧
    prepareRequests treeFailEnv "github.com/a/b" "rev1"
        = .error "tree walk failed" ∧
    ((runPipeline (.error "tree walk failed") procNoop none).1 = RunState.failed ∧
      (runPipeline (.error "tree walk failed") procNoop none).2.2.indexCalls = 0 ∧
      (runPipeline (.error "tree walk failed") procNoop none).2.2.pending = []) :=
  ⟨enumeration_failure_fatal_no_writes.1 openFailEnv "github.com/a/b" "rev1"
      "workspace open failed" rfl,
    enumeration_failure_fatal_no_writes.2.1 treeFailEnv "github.com/a/b" "rev1"
      { workspaceDir := "/wc/", workspaceRevision := "rev1" } "tree walk failed"
      rfl rfl,
    enumeration_failure_fatal_no_writes.2.2 procNoop none "tree walk failed"⟩

/-- C7: a symbolic-link work item yields a buffered Document whose content
is the link target text obtained by reading the link itself, while a
regular-file item yields a Document whose content is the file bytes read as
utf8. -/
theorem processRequest_symlink_reads_link_target :
    (∀ (lspOut : Except String (Option LspResponse)) (fsm : FsModel)
        (dl : String → String → Option String) (req : LspIndexRequest)
        (st : FileStat) (t : String),
      fsm.lstat (localFilePath req) = .ok st → st.isSymbolicLink = true →
      fsm.readlink (localFilePath req) = .ok t →
      (docWrites (processRequest lspOut fsm dl req).1).map Document.content = [t]) ∧
    (∀ (lspOut : Except String (Option LspResponse)) (fsm : FsModel)
        (dl : String → String → Option String) (req : LspIndexRequest)
        (st : FileStat) (c : String),
      fsm.lstat (localFilePath req) = .ok st → st.isSymbolicLink = false →
      fsm.readFile (localFilePath req) = .ok c →
      (docWrites (processRequest lspOut fsm dl req).1).map Document.content = [c]) := by
  constructor
  · intro lspOut fsm dl req st t hst hlink ht
    have hread : (if st.isSymbolicLink then fsm.readlink (localFilePath req)
        else fsm.readFile (localFilePath req)) = .ok t := by
      rw [hlink]
      simpa using ht
    rw [processRequest_read_ok_eq lspOut fsm dl req st t hst hread,
      docWrites_append, docWrites_analysisTryBlock]
    rfl
  · intro lspOut fsm dl req st c hst hlink hc
    have hread : (if st.isSymbolicLink then fsm.readlink (localFilePath req)
        else fsm.readFile (localFilePath req)) = .ok c := by
      rw [hlink]
      simpa using hc
    rw [processRequest_read_ok_eq lspOut fsm dl req st c hst hread,
      docWrites_append, docWrites_analysisTryBlock]
    rfl

/-- Witness for C7 on concrete link and regular-file file systems. -/
theorem processRequest_symlink_reads_link_target_witness :
    (docWrites (processRequest (.error "lsp down") fsmLink dlNone reqA).1).map
        Document.content = ["target-path"] ∧
    (docWrites (processRequest (.error "lsp down") fsmFile dlNone reqA).1).map
        Document.content = ["file-bytes"] :=
  ⟨processRequest_symlink_reads_link_target.1 (.error "lsp down") fsmLink dlNone
      reqA { isSymbolicLink := true } "target-path" rfl rfl rfl,
    processRequest_symlink_reads_link_target.2 (.error "lsp down") fsmFile dlNone
      reqA { isSymbolicLink := false } "file-bytes" rfl rfl rfl⟩

/-- C9: when the file-read sequence fails, processRequest raises the error
with no Document buffered and no stats returned, while the symbol and
reference writes already issued for the item remain. -/
theorem processRequest_read_failure_keeps_buffered_writes
    (item : AnalysisResultItem) (rest : List AnalysisResultItem) (fsm : FsModel)
    (dl : String → String → Option String) (req : LspIndexRequest)
    (hfail : fsReadOk fsm (localFilePath req) = false) :
    (processRequest (.ok (some { result := item :: rest })) fsm dl req).1 =
      item.symbols.map (fun s =>
        BatchEntry.mk (IndexName.symbolIndex req.repoUri) (BatchPayload.symbol s)) ++
      item.references.map (fun r =>
        BatchEntry.mk (IndexName.referenceIndex req.repoUri) (BatchPayload.ref r)) ∧
    docWrites (processRequest (.ok (some { result := item :: rest })) fsm dl req).1
      = [] ∧
    raisesError (processRequest (.ok (some { result := item :: rest })) fsm dl req)
      = true := by
  unfold fsReadOk at hfail
  cases hst : fsm.lstat (localFilePath req) with
  | error e =>
    rw [processRequest_lstat_error_eq (.ok (some { result := item :: rest }))
      fsm dl req e hst]
    exact ⟨rfl, docWrites_analysisTryBlock _ _, rfl⟩
  | ok st =>
    rw [hst] at hfail
    cases hread : (if st.isSymbolicLink then fsm.readlink (localFilePath req)
        else fsm.readFile (localFilePath req)) with
    | ok c =>
      simp [hread] at hfail
    | error e =>
      rw [processRequest_read_error_eq (.ok (some { result := item :: rest }))
        fsm dl req st e hst hread]
      exact ⟨rfl, docWrites_analysisTryBlock _ _, rfl⟩

/-- Witness for C9 on a file system whose reads throw. -/
theorem processRequest_read_failure_keeps_buffered_writes_witness :
    (processRequest (.ok (some { result := [itemA] })) fsmBroken dlNone reqA).1 =
      itemA.symbols.map (fun s =>
        BatchEntry.mk (IndexName.symbolIndex reqA.repoUri) (BatchPayload.symbol s)) ++
      itemA.references.map (fun r =>
        BatchEntry.mk (IndexName.referenceIndex reqA.repoUri) (BatchPayload.ref r)) ∧
    docWrites (processRequest (.ok (some { result := [itemA] })) fsmBroken dlNone
      reqA).1 = [] ∧
    raisesError (processRequest (.ok (some { result := [itemA] })) fsmBroken dlNone
      reqA) = true :=
  processRequest_read_failure_keeps_buffered_writes itemA [] fsmBroken dlNone
    reqA rfl

/-- C6: on a successful, non-empty analysis response, processRequest
buffers one symbols-collection write per symbol of the first result item,
one references-collection write per reference, then the Document whose
qnames are the deduplicated symbol names, and returns stats counting the
symbols, the references and one file. -/
theorem processRequest_success_buffers_and_counts
    (item : AnalysisResultItem) (rest : List AnalysisResultItem) (fsm : FsModel)
    (dl : String → String → Option String) (req : LspIndexRequest)
    (st : FileStat) (content : String)
    (hst : fsm.lstat (localFilePath req) = .ok st)
    (hread : (if st.isSymbolicLink then fsm.readlink (localFilePath req)
        else fsm.readFile (localFilePath req)) = .ok content) :
    processRequest (.ok (some { result := item :: rest })) fsm dl req =
      (item.symbols.map (fun s =>
          BatchEntry.mk (IndexName.symbolIndex req.repoUri) (BatchPayload.symbol s)) ++
        item.references.map (fun r =>
          BatchEntry.mk (IndexName.referenceIndex req.repoUri) (BatchPayload.ref r)) ++
        [BatchEntry.mk (IndexName.documentIndex req.repoUri) (BatchPayload.doc
          { repoUri := req.repoUri
            path := req.filePath
            content := content
            language := dl req.filePath content
            qnames := collectNames item.symbols })],
       .ok { symbol := item.symbols.length
             reference := item.references.length
             file := 1 }) ∧
    (collectNames item.symbols).Nodup ∧
    (collectNames item.symbols).toFinset =
      (item.symbols.map fun s => s.symbolInformation.name).toFinset := by
  refine ⟨?_, collectNames_nodup item.symbols, ?_⟩
  · rw [processRequest_read_ok_eq (.ok (some { result := item :: rest }))
      fsm dl req st content hst hread]
    rfl
  · ext x
    simp [List.mem_toFinset, mem_collectNames]

/-- Witness for C6 on a concrete three-symbol, one-reference response. -/
theorem processRequest_success_buffers_and_counts_witness :
    processRequest (.ok (some { result := [itemA] })) fsmFile dlNone reqA =
      (itemA.symbols.map (fun s =>
          BatchEntry.mk (IndexName.symbolIndex reqA.repoUri) (BatchPayload.symbol s)) ++
        itemA.references.map (fun r =>
          BatchEntry.mk (IndexName.referenceIndex reqA.repoUri) (BatchPayload.ref r)) ++
        [BatchEntry.mk (IndexName.documentIndex reqA.repoUri) (BatchPayload.doc
          { repoUri := reqA.repoUri
            path := reqA.filePath
            content := "file-bytes"
            language := dlNone reqA.filePath "file-bytes"
            qnames := collectNames itemA.symbols })],
       .ok { symbol := itemA.symbols.length
             reference := itemA.references.length
             file := 1 }) ∧
    (collectNames itemA.symbols).Nodup ∧
    (collectNames itemA.symbols).toFinset =
      (itemA.symbols.map fun s => s.symbolInformation.name).toFinset :=
  processRequest_success_buffers_and_counts itemA [] fsmFile dlNone reqA
    { isSymbolicLink := false } "file-bytes" rfl rfl

/-- C1: when the analysis call errors or returns an empty result but the
file read succeeds, processRequest still buffers exactly one write, the
Document, and returns stats of zero symbols, zero references and one file;
and a run whose file reads all succeed, whatever each item's analysis
outcome (failing for some files, succeeding for others), completes with a
file count of N. -/
theorem processRequest_failed_analysis_still_counts_file :
    (∀ (lspOut : Except String (Option LspResponse)) (fsm : FsModel)
        (dl : String → String → Option String) (req : LspIndexRequest),
      lspFailedOrEmpty lspOut = true → fsReadOk fsm (localFilePath req) = true →
      (processRequest lspOut fsm dl req).2 =
        .ok { symbol := 0, reference := 0, file := 1 } ∧
      (processRequest lspOut fsm dl req).1.length = 1 ∧
      (docWrites (processRequest lspOut fsm dl req).1).length = 1) ∧
    (∀ (lspOf : LspIndexRequest → Except String (Option LspResponse))
        (fsmOf : LspIndexRequest → FsModel)
        (dlOf : LspIndexRequest → String → String → Option String)
        (reqs : List LspIndexRequest),
      (∀ r ∈ reqs, fsReadOk (fsmOf r) (localFilePath r) = true) →
      (runPipeline (.ok reqs)
        (fun r => processRequest (lspOf r) (fsmOf r) (dlOf r) r) none).1
        = RunState.completed ∧
      (runPipeline (.ok reqs)
        (fun r => processRequest (lspOf r) (fsmOf r) (dlOf r) r) none).2.1.file
        = reqs.length) := by
  have hA : ∀ (lspOut : Except String (Option LspResponse)) (fsm : FsModel)
      (dl : String → String → Option String) (req : LspIndexRequest),
      lspFailedOrEmpty lspOut = true → fsReadOk fsm (localFilePath req) = true →
      (processRequest lspOut fsm dl req).2 =
        .ok { symbol := 0, reference := 0, file := 1 } ∧
      (processRequest lspOut fsm dl req).1.length = 1 ∧
      (docWrites (processRequest lspOut fsm dl req).1).length = 1 := by
    intro lspOut fsm dl req hlsp hok
    unfold fsReadOk at hok
    cases hst : fsm.lstat (localFilePath req) with
    | error e =>
      rw [hst] at hok
      simp at hok
    | ok st =>
      rw [hst] at hok
      cases hread : (if st.isSymbolicLink then fsm.readlink (localFilePath req)
          else fsm.readFile (localFilePath req)) with
      | error e =>
        simp [hread] at hok
      | ok content =>
        rw [processRequest_read_ok_eq lspOut fsm dl req st content hst hread,
          analysisTryBlock_failedOrEmpty lspOut req.repoUri hlsp]
        exact ⟨rfl, rfl, rfl⟩
  have hB : ∀ (lspOut : Except String (Option LspResponse)) (fsm : FsModel)
      (dl : String → String → Option String) (req : LspIndexRequest),
      fsReadOk fsm (localFilePath req) = true →
      ∃ s : IndexStats, (processRequest lspOut fsm dl req).2 = .ok s ∧
      s.file = 1 := by
    intro lspOut fsm dl req hok
    unfold fsReadOk at hok
    cases hst : fsm.lstat (localFilePath req) with
    | error e =>
      rw [hst] at hok
      simp at hok
    | ok st =>
      rw [hst] at hok
      cases hread : (if st.isSymbolicLink then fsm.readlink (localFilePath req)
          else fsm.readFile (localFilePath req)) with
      | error e =>
        simp [hread] at hok
      | ok content =>
        rw [processRequest_read_ok_eq lspOut fsm dl req st content hst hread]
        exact ⟨_, rfl, rfl⟩
  refine ⟨hA, ?_⟩
  intro lspOf fsmOf dlOf reqs h
  have hitems : ∀ r ∈ reqs, ∃ s : IndexStats,
      ((fun r => processRequest (lspOf r) (fsmOf r) (dlOf r) r) r).2 = .ok s ∧
      s.file = 1 := by
    intro r hr
    exact hB (lspOf r) (fsmOf r) (dlOf r) r (h r hr)
  have hcount := runLoop_none_file_count
    (fun r => processRequest (lspOf r) (fsmOf r) (dlOf r) r) reqs 0
    BufferState.initial IndexStats.zero hitems
  rcases hrl : runLoop (fun r => processRequest (lspOf r) (fsmOf r) (dlOf r) r)
      none reqs 0 BufferState.initial IndexStats.zero with ⟨buf, stats, fl⟩
  rw [hrl] at hcount
  have hfl : fl = false := hcount.1
  have hfile : stats.file = IndexStats.zero.file + reqs.length := hcount.2
  simp only [runPipeline, hrl]
  rw [hfl]
  simp only [Bool.false_eq_true, if_false]
  refine ⟨trivial, ?_⟩
  show stats.file = reqs.length
  rw [hfile]
  show 0 + reqs.length = reqs.length
  exact Nat.zero_add reqs.length

/-- Witness for C1: a failing analysis on a readable file still produces
one Document write and a file count of one, and a mixed two-item run where
the analysis of the first file fails while the second succeeds completes
with a file count of two. -/
theorem processRequest_failed_analysis_still_counts_file_witness :
    ((processRequest (.error "lsp down") fsmFile dlNone reqA).2 =
        .ok { symbol := 0, reference := 0, file := 1 } ∧
      (processRequest (.error "lsp down") fsmFile dlNone reqA).1.length = 1 ∧
      (docWrites (processRequest (.error "lsp down") fsmFile dlNone reqA).1).length
        = 1) ∧
    ((runPipeline (.ok [reqA, reqB])
        (fun r => processRequest (mixedLspOf r) fsmFile dlNone r) none).1
        = RunState.completed ∧
      (runPipeline (.ok [reqA, reqB])
        (fun r => processRequest (mixedLspOf r) fsmFile dlNone r) none).2.1.file
        = [reqA, reqB].length) :=
  ⟨processRequest_failed_analysis_still_counts_file.1 (.error "lsp down") fsmFile
      dlNone reqA rfl rfl,
    processRequest_failed_analysis_still_counts_file.2
      mixedLspOf (fun _ => fsmFile) (fun _ => dlNone)
      [reqA, reqB] (by intro r hr; fin_cases hr <;> rfl)⟩

end LspIndexerModel
